import Mathlib

/-!
Shallow embedding of the contract `DAOReputationPortabilityFHE`
(file `contracts/DAO_Rep_Fhe.sol` of the DAO_Rep_Fhe repository).

Modelling conventions:
* `address` and `uint256` values are modelled as `Nat` (no realistic overflow
  occurs in the embedded arithmetic: timestamps, counters and ids only grow by
  tiny increments).
* An fhevm `euint32` ciphertext handle is modelled symbolically by the term
  algebra `Ct`: the default (uninitialized, all-zero) handle, externally
  supplied handles, `FHE.asEuint32` encodings, homomorphic `add`, `mul` and
  `inv`.  Homomorphic operations on the real coprocessor return fresh
  handles, which the free term algebra captures.
* `keccak256(abi.encode(cts, address(this)))` is modelled by the injective
  constructor `Digest.keccakHash`; the default `bytes32(0)` stored in an
  absent mapping slot is the distinct constructor `Digest.zero`.
* Each external entry point is a function from the contract state (plus the
  transaction environment: caller, `block.timestamp`, oracle-chosen
  `requestId`, `address(this)`) to `Except Err (ContractState × List Event)`.
  `Except.error e` models `revert e`: the transaction leaves the state
  unchanged and emits nothing.  Solidity modifiers are inlined as the leading
  checks, in the order they appear on the function.  Local variables of the
  source are inlined as repeated subterms.
* `FHE.requestDecryption` is modelled by taking the opaque `requestId` as an
  environment input; `FHE.checkSignatures` is modelled by an abstract
  environment predicate `checkSig` whose failure reverts (the contract's
  declared `InvalidProof` kind stands for that external revert).
* The `cleartexts` bytes blob is modelled by its fixed two-slot decoding
  `(total, average) : Nat × Nat`.
-/

/-- Symbolic euint32 ciphertext handle (free term algebra over the fhevm ops
used by the contract). `uninit` is the default all-zero handle. -/
inductive Ct where
  | uninit : Ct
  | ext : Nat → Ct
  | enc : Nat → Ct
  | add : Ct → Ct → Ct
  | mul : Ct → Ct → Ct
  | inv : Ct → Ct
deriving DecidableEq

/-- `FHE.isInitialized`: the default handle is the only uninitialized one;
every handle produced by an fhevm operation is initialized. -/
def Ct.isInitialized : Ct → Bool
  | .uninit => false
  | _ => true

/-- Size of a symbolic handle, used to show that homomorphic addition never
returns its own left argument. -/
def Ct.size : Ct → Nat
  | .uninit => 1
  | .ext _ => 1
  | .enc _ => 1
  | .add a b => a.size + b.size + 1
  | .mul a b => a.size + b.size + 1
  | .inv a => a.size + 1

/-- Model of a `bytes32` state digest. `zero` is the default `bytes32(0)` of
an absent mapping slot; `keccakHash cts self` models
`keccak256(abi.encode(cts, address(this)))` (keccak idealized as injective
and never colliding with zero). -/
inductive Digest where
  | zero : Digest
  | keccakHash : List Ct → Nat → Digest
deriving DecidableEq

/-- struct ReputationBatch. -/
structure ReputationBatch where
  batchId : Nat
  isOpen : Bool
  reputationSum : Nat
  submissionCount : Nat
deriving DecidableEq

/-- Default value of a `mapping(uint256 => ReputationBatch)` slot. -/
def ReputationBatch.dflt : ReputationBatch :=
  { batchId := 0, isOpen := false, reputationSum := 0, submissionCount := 0 }

/-- struct ReputationSubmission. -/
structure ReputationSubmission where
  encryptedReputation : Ct
  provider : Nat
  batchId : Nat
deriving DecidableEq

/-- struct DecryptionContext. -/
structure DecryptionContext where
  batchId : Nat
  stateHash : Digest
  processed : Bool
deriving DecidableEq

/-- Default value of a `mapping(uint256 => DecryptionContext)` slot. -/
def DecryptionContext.dflt : DecryptionContext :=
  { batchId := 0, stateHash := Digest.zero, processed := false }

/-- Custom errors of the contract, plus `RevertMsg` for Solidity
`require`/`revert` with a string message. -/
inductive Err where
  | NotOwner : Err
  | NotProvider : Err
  | PausedState : Err
  | CooldownActive : Err
  | BatchNotOpen : Err
  | InvalidBatch : Err
  | ReplayAttempt : Err
  | StateMismatch : Err
  | InvalidProof : Err
  | AlreadyInitialized : Err
  | NotInitialized : Err
  | RevertMsg : String → Err
deriving DecidableEq

/-- Events emitted by the contract. -/
inductive Event where
  | OwnershipTransferred : Nat → Nat → Event
  | ProviderAdded : Nat → Event
  | ProviderRemoved : Nat → Event
  | CooldownSet : Nat → Event
  | Paused : Nat → Event
  | Unpaused : Nat → Event
  | BatchOpened : Nat → Event
  | BatchClosed : Nat → Event
  | ReputationSubmitted : Nat → Nat → Nat → Event
  | DecryptionRequested : Nat → Nat → Event
  | DecryptionCompleted : Nat → Nat → Nat → Nat → Event
deriving DecidableEq

/-- The contract storage. Solidity mappings are total functions whose value
at an unwritten key is the type's default. -/
structure ContractState where
  owner : Nat
  isProvider : Nat → Bool
  lastSubmissionTime : Nat → Nat
  lastDecryptionRequestTime : Nat → Nat
  cooldownSeconds : Nat
  paused : Bool
  batches : Nat → ReputationBatch
  currentBatchId : Nat
  submissions : List ReputationSubmission
  decryptionContexts : Nat → DecryptionContext

/-- Pointwise mapping update (`m[k] = v`). -/
def upd {A : Type} (m : Nat → A) (k : Nat) (v : A) : Nat → A :=
  fun q => if q = k then v else m q

/-- Result of one transaction: revert with an error, or the new state plus
the emitted events. -/
abbrev TxResult := Except Err (ContractState × List Event)

/-- True iff the transaction succeeded. -/
def isOk {E A : Type} : Except E A → Bool
  | .ok _ => true
  | .error _ => false

/-- Extract the post-state of a successful transaction (default otherwise). -/
def getOk (r : TxResult) (dflt : ContractState) : ContractState :=
  match r with
  | .ok p => p.1
  | .error _ => dflt

/-- constructor(): deployer becomes owner and is registered as provider. -/
def constructorState (deployer : Nat) : ContractState × List Event :=
  ({ owner := deployer,
     isProvider := upd (fun _ => false) deployer true,
     lastSubmissionTime := fun _ => 0,
     lastDecryptionRequestTime := fun _ => 0,
     cooldownSeconds := 60,
     paused := false,
     batches := fun _ => ReputationBatch.dflt,
     currentBatchId := 1,
     submissions := [],
     decryptionContexts := fun _ => DecryptionContext.dflt },
   [Event.ProviderAdded deployer])

/-- The state right after deployment. -/
def initS (deployer : Nat) : ContractState := (constructorState deployer).1

/-- transferOwnership(newOwner). -/
def transferOwnership (s : ContractState) (caller newOwner : Nat) : TxResult :=
  if caller ≠ s.owner then .error .NotOwner
  else if newOwner = 0 then .error (.RevertMsg "New owner is the zero address")
  else .ok ({ s with owner := newOwner },
            [Event.OwnershipTransferred s.owner newOwner])

/-- addProvider(provider). -/
def addProvider (s : ContractState) (caller p : Nat) : TxResult :=
  if caller ≠ s.owner then .error .NotOwner
  else if s.isProvider p = false then
    .ok ({ s with isProvider := upd s.isProvider p true }, [Event.ProviderAdded p])
  else .ok (s, [])

/-- removeProvider(provider). -/
def removeProvider (s : ContractState) (caller p : Nat) : TxResult :=
  if caller ≠ s.owner then .error .NotOwner
  else if s.isProvider p = true then
    .ok ({ s with isProvider := upd s.isProvider p false }, [Event.ProviderRemoved p])
  else .ok (s, [])

/-- setCooldownSeconds(newCooldownSeconds). -/
def setCooldownSeconds (s : ContractState) (caller n : Nat) : TxResult :=
  if caller ≠ s.owner then .error .NotOwner
  else .ok ({ s with cooldownSeconds := n }, [Event.CooldownSet n])

/-- pause(). -/
def pause (s : ContractState) (caller : Nat) : TxResult :=
  if caller ≠ s.owner then .error .NotOwner
  else if s.paused then .error .PausedState
  else .ok ({ s with paused := true }, [Event.Paused caller])

/-- unpause(). -/
def unpause (s : ContractState) (caller : Nat) : TxResult :=
  if caller ≠ s.owner then .error .NotOwner
  else if s.paused = false then .error (.RevertMsg "Contract not paused")
  else .ok ({ s with paused := false }, [Event.Unpaused caller])

/-- openBatch(): (re)initializes `batches[currentBatchId]` as Open with zero
counters. Note the source has no guard against the current batch being
already open. -/
def openBatch (s : ContractState) (caller : Nat) : TxResult :=
  if caller ≠ s.owner then .error .NotOwner
  else if s.paused then .error .PausedState
  else
    .ok ({ s with
            batches := upd s.batches s.currentBatchId
              { batchId := s.currentBatchId, isOpen := true,
                reputationSum := 0, submissionCount := 0 } },
         [Event.BatchOpened s.currentBatchId])

/-- closeBatch(): requires the current batch to be Open, closes it and
advances the pointer (the fresh id is not auto-opened). -/
def closeBatch (s : ContractState) (caller : Nat) : TxResult :=
  if caller ≠ s.owner then .error .NotOwner
  else if s.paused then .error .PausedState
  else if (s.batches s.currentBatchId).isOpen = false then .error .InvalidBatch
  else
    .ok ({ s with
            batches := upd s.batches s.currentBatchId
              { s.batches s.currentBatchId with isOpen := false },
            currentBatchId := s.currentBatchId + 1 },
         [Event.BatchClosed s.currentBatchId])

/-- submitReputation(encryptedReputation), with the modifiers
onlyProvider, whenNotPaused, checkSubmissionCooldown(msg.sender) inlined in
order, then the body's checks and effects. -/
def submitReputation (s : ContractState) (caller now : Nat)
    (encryptedReputation : Ct) : TxResult :=
  if s.isProvider caller = false then .error .NotProvider
  else if s.paused then .error .PausedState
  else if now < s.lastSubmissionTime caller + s.cooldownSeconds then .error .CooldownActive
  else if (s.batches s.currentBatchId).isOpen = false then .error .BatchNotOpen
  else if encryptedReputation.isInitialized = false then .error .NotInitialized
  else
    .ok ({ s with
            submissions := s.submissions ++
              [{ encryptedReputation := encryptedReputation, provider := caller,
                 batchId := s.currentBatchId }],
            batches := upd s.batches s.currentBatchId
              { s.batches s.currentBatchId with
                  submissionCount := (s.batches s.currentBatchId).submissionCount + 1 },
            lastSubmissionTime := upd s.lastSubmissionTime caller now },
         [Event.ReputationSubmitted caller s.currentBatchId s.submissions.length])

/-- The aggregation loop of requestBatchDecryption: scan the ledger in
arrival order, seed the accumulator with the first entry of the batch, then
homomorphically add each later matching entry. -/
def requestAggLoop (subs : List ReputationSubmission) (batchId : Nat)
    (acc : Ct) (initialized : Bool) : Ct × Bool :=
  match subs with
  | [] => (acc, initialized)
  | sub :: rest =>
    if sub.batchId = batchId then
      if initialized = false then
        requestAggLoop rest batchId sub.encryptedReputation true
      else
        requestAggLoop rest batchId (Ct.add acc sub.encryptedReputation) true
    else requestAggLoop rest batchId acc initialized

/-- The aggregation loop of myCallback; the source duplicates the loop body
of requestBatchDecryption verbatim, so the two are embedded separately and
proved equal. -/
def callbackAggLoop (subs : List ReputationSubmission) (batchId : Nat)
    (acc : Ct) (initialized : Bool) : Ct × Bool :=
  match subs with
  | [] => (acc, initialized)
  | sub :: rest =>
    if sub.batchId = batchId then
      if initialized = false then
        callbackAggLoop rest batchId sub.encryptedReputation true
      else
        callbackAggLoop rest batchId (Ct.add acc sub.encryptedReputation) true
    else callbackAggLoop rest batchId acc initialized

/-- _hashCiphertexts: keccak over the ciphertext handles and address(this). -/
def hashCiphertexts (cts : List Ct) (self : Nat) : Digest :=
  Digest.keccakHash cts self

/-- requestBatchDecryption(batchId), with the modifiers onlyProvider,
whenNotPaused, checkDecryptionCooldown(msg.sender) inlined in order.
`batchId >= currentBatchId` is rendered as `currentBatchId ≤ batchId`.
The oracle-produced `requestId` and `address(this)` are environment inputs. -/
def requestBatchDecryption (s : ContractState)
    (caller now batchId requestId self : Nat) : TxResult :=
  if s.isProvider caller = false then .error .NotProvider
  else if s.paused then .error .PausedState
  else if now < s.lastDecryptionRequestTime caller + s.cooldownSeconds then
    .error .CooldownActive
  else if s.currentBatchId ≤ batchId ∨ (s.batches batchId).isOpen = false then
    .error .InvalidBatch
  else if (s.batches batchId).submissionCount = 0 then
    .error (.RevertMsg "Batch has no submissions")
  else if (requestAggLoop s.submissions batchId Ct.uninit false).2 = false then
    .error (.RevertMsg "No submissions found for batch")
  else
    .ok ({ s with
            decryptionContexts := upd s.decryptionContexts requestId
              { batchId := batchId,
                stateHash := hashCiphertexts
                  [(requestAggLoop s.submissions batchId Ct.uninit false).1,
                   Ct.mul (requestAggLoop s.submissions batchId Ct.uninit false).1
                     (Ct.inv (Ct.enc (s.batches batchId).submissionCount))] self,
                processed := false },
            lastDecryptionRequestTime := upd s.lastDecryptionRequestTime caller now },
         [Event.DecryptionRequested requestId batchId])

/-- myCallback(requestId, cleartexts, proof): replay check, fresh
re-aggregation, digest comparison, signature check, then mark processed and
emit. The source has no access-control modifier here and no existence check
for the context. -/
def myCallback (checkSig : Nat → Nat × Nat → Nat → Bool) (s : ContractState)
    (self requestId : Nat) (cleartexts : Nat × Nat) (proof : Nat) : TxResult :=
  if (s.decryptionContexts requestId).processed then .error .ReplayAttempt
  else if hashCiphertexts
      [(callbackAggLoop s.submissions (s.decryptionContexts requestId).batchId
          Ct.uninit false).1,
       Ct.mul (callbackAggLoop s.submissions (s.decryptionContexts requestId).batchId
          Ct.uninit false).1
         (Ct.inv (Ct.enc (s.batches
            (s.decryptionContexts requestId).batchId).submissionCount))] self ≠
      (s.decryptionContexts requestId).stateHash then .error .StateMismatch
  else if checkSig requestId cleartexts proof = false then .error .InvalidProof
  else
    .ok ({ s with
            decryptionContexts := upd s.decryptionContexts requestId
              { s.decryptionContexts requestId with processed := true } },
         [Event.DecryptionCompleted requestId
            (s.decryptionContexts requestId).batchId cleartexts.1 cleartexts.2])

/-! ### Concrete states used by counterexamples and witnesses -/

/-- Environment in which the external signature check always passes. -/
def sigTrue : Nat → Nat × Nat → Nat → Bool := fun _ _ _ => true

/-- Deploy as address 0, then openBatch. -/
def cexS1 : ContractState := getOk (openBatch (initS 0) 0) (initS 0)

/-- ... then one submission by the owner-provider at time 60. -/
def cexS2 : ContractState := getOk (submitReputation cexS1 0 60 (Ct.ext 1)) cexS1

/-- ... then a second openBatch while batch 1 is still open. -/
def cexS3 : ContractState := getOk (openBatch cexS2 0) cexS2

/-- ... or instead closeBatch after the submission. -/
def cexS2c : ContractState := getOk (closeBatch cexS2 0) cexS2

/-- An unreachable raw state in which an open batch lies strictly below the
current pointer, so that requestBatchDecryption can succeed at all. -/
def sUnreach : ContractState :=
  { owner := 0,
    isProvider := upd (fun _ => false) 0 true,
    lastSubmissionTime := fun _ => 0,
    lastDecryptionRequestTime := fun _ => 0,
    cooldownSeconds := 60,
    paused := false,
    batches := upd (fun _ => ReputationBatch.dflt) 1
      { batchId := 1, isOpen := true, reputationSum := 0, submissionCount := 1 },
    currentBatchId := 2,
    submissions := [{ encryptedReputation := Ct.ext 1, provider := 0, batchId := 1 }],
    decryptionContexts := fun _ => DecryptionContext.dflt }

/-- The state after a successful requestBatchDecryption from `sUnreach`. -/
def sUnreachReq : ContractState := getOk (requestBatchDecryption sUnreach 0 100 1 7 9) sUnreach

/-- A ciphertext handle used by the callback-frame witness. -/
def ctW : Ct := Ct.ext 1

/-- A raw state holding one pending decryption context whose stored digest
matches the ledger, so the callback can succeed. -/
def sCb : ContractState :=
  { owner := 0,
    isProvider := upd (fun _ => false) 0 true,
    lastSubmissionTime := fun _ => 0,
    lastDecryptionRequestTime := fun _ => 0,
    cooldownSeconds := 60,
    paused := false,
    batches := upd (fun _ => ReputationBatch.dflt) 1
      { batchId := 1, isOpen := true, reputationSum := 0, submissionCount := 1 },
    currentBatchId := 2,
    submissions := [{ encryptedReputation := ctW, provider := 0, batchId := 1 }],
    decryptionContexts := upd (fun _ => DecryptionContext.dflt) 5
      { batchId := 1,
        stateHash := hashCiphertexts [ctW, Ct.mul ctW (Ct.inv (Ct.enc 1))] 9,
        processed := false } }

/-- The state after the successful callback from `sCb`. -/
def sCb2 : ContractState := getOk (myCallback sigTrue sCb 9 5 (60, 20) 0) sCb

/-- A raw state holding one already-processed decryption context. -/
def sProc : ContractState :=
  { initS 0 with
      decryptionContexts := upd (fun _ => DecryptionContext.dflt) 5
        { batchId := 1, stateHash := Digest.zero, processed := true } }

/-! ### Generic inversion helpers -/

/-- Two distinct revert reasons give distinct transaction results. -/
theorem error_ne {E A : Type} {e1 e2 : E} (hne : e1 ≠ e2) :
    (Except.error e1 : Except E A) ≠ Except.error e2 := by
  intro hc
  injection hc with h
  exact hne h

/-- A successful transaction result is never a revert. -/
theorem ok_ne_error {E A : Type} {a : A} {e : E} :
    (Except.ok a : Except E A) ≠ Except.error e := by
  intro hc
  exact Except.noConfusion hc

/-! ### Per-operation success characterizations -/

/-- transferOwnership only rewrites the owner field. -/
theorem transferOwnership_ok {s s' : ContractState} {caller newOwner : Nat}
    {evs : List Event}
    (h : transferOwnership s caller newOwner = Except.ok (s', evs)) :
    s' = { s with owner := newOwner } := by
  unfold transferOwnership at h
  split at h
  · exact Except.noConfusion h
  split at h
  · exact Except.noConfusion h
  simp only [Except.ok.injEq, Prod.mk.injEq] at h
  exact h.1.symm

/-- addProvider only rewrites the provider flag (or nothing). -/
theorem addProvider_ok {s s' : ContractState} {caller p : Nat} {evs : List Event}
    (h : addProvider s caller p = Except.ok (s', evs)) :
    s' = { s with isProvider := upd s.isProvider p true } ∨ s' = s := by
  unfold addProvider at h
  split at h
  · exact Except.noConfusion h
  split at h
  · simp only [Except.ok.injEq, Prod.mk.injEq] at h
    exact Or.inl h.1.symm
  · simp only [Except.ok.injEq, Prod.mk.injEq] at h
    exact Or.inr h.1.symm

/-- removeProvider only rewrites the provider flag (or nothing). -/
theorem removeProvider_ok {s s' : ContractState} {caller p : Nat} {evs : List Event}
    (h : removeProvider s caller p = Except.ok (s', evs)) :
    s' = { s with isProvider := upd s.isProvider p false } ∨ s' = s := by
  unfold removeProvider at h
  split at h
  · exact Except.noConfusion h
  split at h
  · simp only [Except.ok.injEq, Prod.mk.injEq] at h
    exact Or.inl h.1.symm
  · simp only [Except.ok.injEq, Prod.mk.injEq] at h
    exact Or.inr h.1.symm

/-- setCooldownSeconds only rewrites the cooldown. -/
theorem setCooldownSeconds_ok {s s' : ContractState} {caller n : Nat} {evs : List Event}
    (h : setCooldownSeconds s caller n = Except.ok (s', evs)) :
    s' = { s with cooldownSeconds := n } := by
  unfold setCooldownSeconds at h
  split at h
  · exact Except.noConfusion h
  simp only [Except.ok.injEq, Prod.mk.injEq] at h
  exact h.1.symm

/-- pause only sets the paused flag. -/
theorem pause_ok {s s' : ContractState} {caller : Nat} {evs : List Event}
    (h : pause s caller = Except.ok (s', evs)) :
    s' = { s with paused := true } := by
  unfold pause at h
  split at h
  · exact Except.noConfusion h
  split at h
  · exact Except.noConfusion h
  simp only [Except.ok.injEq, Prod.mk.injEq] at h
  exact h.1.symm

/-- unpause only clears the paused flag. -/
theorem unpause_ok {s s' : ContractState} {caller : Nat} {evs : List Event}
    (h : unpause s caller = Except.ok (s', evs)) :
    s' = { s with paused := false } := by
  unfold unpause at h
  split at h
  · exact Except.noConfusion h
  split at h
  · exact Except.noConfusion h
  simp only [Except.ok.injEq, Prod.mk.injEq] at h
  exact h.1.symm

/-- openBatch re-initializes the slot of the current batch id. -/
theorem openBatch_ok {s s' : ContractState} {caller : Nat} {evs : List Event}
    (h : openBatch s caller = Except.ok (s', evs)) :
    s' = { s with
            batches := upd s.batches s.currentBatchId
              { batchId := s.currentBatchId, isOpen := true,
                reputationSum := 0, submissionCount := 0 } } := by
  unfold openBatch at h
  split at h
  · exact Except.noConfusion h
  split at h
  · exact Except.noConfusion h
  simp only [Except.ok.injEq, Prod.mk.injEq] at h
  exact h.1.symm

/-- closeBatch requires the current batch open; it closes it and advances
the pointer. -/
theorem closeBatch_ok {s s' : ContractState} {caller : Nat} {evs : List Event}
    (h : closeBatch s caller = Except.ok (s', evs)) :
    (s.batches s.currentBatchId).isOpen = true ∧
    s' = { s with
            batches := upd s.batches s.currentBatchId
              { s.batches s.currentBatchId with isOpen := false },
            currentBatchId := s.currentBatchId + 1 } := by
  unfold closeBatch at h
  split at h
  · exact Except.noConfusion h
  split at h
  · exact Except.noConfusion h
  split at h
  · exact Except.noConfusion h
  next hopen =>
    simp only [Except.ok.injEq, Prod.mk.injEq] at h
    refine ⟨?_, h.1.symm⟩
    revert hopen
    cases (s.batches s.currentBatchId).isOpen <;> simp

/-- submitReputation requires the current batch open; it appends one ledger
entry for the current batch, bumps its submissionCount and stamps the
caller's last-submission time. -/
theorem submitReputation_ok {s s' : ContractState} {caller now : Nat} {ct : Ct}
    {evs : List Event}
    (h : submitReputation s caller now ct = Except.ok (s', evs)) :
    (s.batches s.currentBatchId).isOpen = true ∧
    s' = { s with
            submissions := s.submissions ++
              [{ encryptedReputation := ct, provider := caller,
                 batchId := s.currentBatchId }],
            batches := upd s.batches s.currentBatchId
              { s.batches s.currentBatchId with
                  submissionCount := (s.batches s.currentBatchId).submissionCount + 1 },
            lastSubmissionTime := upd s.lastSubmissionTime caller now } := by
  unfold submitReputation at h
  split at h
  · exact Except.noConfusion h
  split at h
  · exact Except.noConfusion h
  split at h
  · exact Except.noConfusion h
  split at h
  · exact Except.noConfusion h
  next hopen =>
    split at h
    · exact Except.noConfusion h
    simp only [Except.ok.injEq, Prod.mk.injEq] at h
    refine ⟨?_, h.1.symm⟩
    revert hopen
    cases (s.batches s.currentBatchId).isOpen <;> simp

/-- requestBatchDecryption succeeds only for an open batch strictly below
the current pointer; it stores the context and stamps the request time. -/
theorem requestBatchDecryption_ok {s s' : ContractState}
    {caller now batchId requestId self : Nat} {evs : List Event}
    (h : requestBatchDecryption s caller now batchId requestId self = Except.ok (s', evs)) :
    batchId < s.currentBatchId ∧ (s.batches batchId).isOpen = true ∧
    (requestAggLoop s.submissions batchId Ct.uninit false).2 = true ∧
    s' = { s with
            decryptionContexts := upd s.decryptionContexts requestId
              { batchId := batchId,
                stateHash := hashCiphertexts
                  [(requestAggLoop s.submissions batchId Ct.uninit false).1,
                   Ct.mul (requestAggLoop s.submissions batchId Ct.uninit false).1
                     (Ct.inv (Ct.enc (s.batches batchId).submissionCount))] self,
                processed := false },
            lastDecryptionRequestTime := upd s.lastDecryptionRequestTime caller now } := by
  unfold requestBatchDecryption at h
  split at h
  · exact Except.noConfusion h
  split at h
  · exact Except.noConfusion h
  split at h
  · exact Except.noConfusion h
  split at h
  · exact Except.noConfusion h
  next hgate =>
    split at h
    · exact Except.noConfusion h
    next hagg =>
      split at h
      · exact Except.noConfusion h
      next hagg2 =>
        rw [not_or] at hgate
        simp only [Except.ok.injEq, Prod.mk.injEq] at h
        refine ⟨by omega, ?_, ?_, h.1.symm⟩
        · have := hgate.2
          revert this
          cases (s.batches batchId).isOpen <;> simp
        · revert hagg2
          cases (requestAggLoop s.submissions batchId Ct.uninit false).2 <;> simp

/-- myCallback succeeds only on an unprocessed context; the sole state
change is setting that context's processed flag, and the emitted event
carries the decoded two-slot payload. -/
theorem myCallback_ok {checkSig : Nat → Nat × Nat → Nat → Bool}
    {s s' : ContractState} {self requestId : Nat} {pay : Nat × Nat} {pf : Nat}
    {evs : List Event}
    (h : myCallback checkSig s self requestId pay pf = Except.ok (s', evs)) :
    (s.decryptionContexts requestId).processed = false ∧
    s' = { s with
            decryptionContexts := upd s.decryptionContexts requestId
              { s.decryptionContexts requestId with processed := true } } ∧
    evs = [Event.DecryptionCompleted requestId
      (s.decryptionContexts requestId).batchId pay.1 pay.2] := by
  unfold myCallback at h
  split at h
  · exact Except.noConfusion h
  next hp =>
    split at h
    · exact Except.noConfusion h
    split at h
    · exact Except.noConfusion h
    simp only [Except.ok.injEq, Prod.mk.injEq] at h
    refine ⟨?_, h.1.symm, h.2.symm⟩
    revert hp
    cases (s.decryptionContexts requestId).processed <;> simp

/-! ### Aggregation lemmas -/

/-- The two verbatim-duplicated aggregation loops compute the same result on
every ledger. -/
theorem aggLoop_eq (subs : List ReputationSubmission) (b : Nat) (acc : Ct) (i : Bool) :
    callbackAggLoop subs b acc i = requestAggLoop subs b acc i := by
  induction subs generalizing acc i with
  | nil => rfl
  | cons sub rest ih =>
    simp only [callbackAggLoop, requestAggLoop]
    split
    · split
      · exact ih _ _
      · exact ih _ _
    · exact ih _ _

/-- Appending one matching entry to an already-seeded ledger adds its
ciphertext to the accumulated total. -/
theorem requestAggLoop_append (subs : List ReputationSubmission)
    (e : ReputationSubmission) (b : Nat) (he : e.batchId = b) :
    ∀ (acc : Ct) (i : Bool), (requestAggLoop subs b acc i).2 = true →
      requestAggLoop (subs ++ [e]) b acc i =
        (Ct.add (requestAggLoop subs b acc i).1 e.encryptedReputation, true) := by
  induction subs with
  | nil =>
    intro acc i hi
    simp only [requestAggLoop] at hi
    simp [requestAggLoop, he, hi]
  | cons sub rest ih =>
    intro acc i hi
    simp only [List.cons_append, requestAggLoop] at hi ⊢
    by_cases hsb : sub.batchId = b
    · simp only [if_pos hsb] at hi ⊢
      by_cases hii : i = false
      · simp only [if_pos hii] at hi ⊢
        exact ih _ _ hi
      · simp only [if_neg hii] at hi ⊢
        exact ih _ _ hi
    · simp only [if_neg hsb] at hi ⊢
      exact ih _ _ hi

/-- Homomorphic addition never returns its own left argument: the symbolic
result is a strictly larger term. -/
theorem Ct.add_ne (t x : Ct) : Ct.add t x ≠ t := by
  intro h
  have hs := congrArg Ct.size h
  simp only [Ct.size] at hs
  omega

/-! ### The transition system -/

/-- One successful external call, with arbitrary transaction environment.
The oracle-produced `requestId` of `FHE.requestDecryption` is modelled as
fresh: no context is stored under it yet. -/
inductive Step : ContractState → ContractState → Prop where
  | opTransferOwnership {s s' : ContractState} (caller newOwner : Nat) (evs : List Event)
      (h : transferOwnership s caller newOwner = Except.ok (s', evs)) : Step s s'
  | opAddProvider {s s' : ContractState} (caller p : Nat) (evs : List Event)
      (h : addProvider s caller p = Except.ok (s', evs)) : Step s s'
  | opRemoveProvider {s s' : ContractState} (caller p : Nat) (evs : List Event)
      (h : removeProvider s caller p = Except.ok (s', evs)) : Step s s'
  | opSetCooldownSeconds {s s' : ContractState} (caller n : Nat) (evs : List Event)
      (h : setCooldownSeconds s caller n = Except.ok (s', evs)) : Step s s'
  | opPause {s s' : ContractState} (caller : Nat) (evs : List Event)
      (h : pause s caller = Except.ok (s', evs)) : Step s s'
  | opUnpause {s s' : ContractState} (caller : Nat) (evs : List Event)
      (h : unpause s caller = Except.ok (s', evs)) : Step s s'
  | opOpenBatch {s s' : ContractState} (caller : Nat) (evs : List Event)
      (h : openBatch s caller = Except.ok (s', evs)) : Step s s'
  | opCloseBatch {s s' : ContractState} (caller : Nat) (evs : List Event)
      (h : closeBatch s caller = Except.ok (s', evs)) : Step s s'
  | opSubmitReputation {s s' : ContractState} (caller now : Nat) (ct : Ct) (evs : List Event)
      (h : submitReputation s caller now ct = Except.ok (s', evs)) : Step s s'
  | opRequestBatchDecryption {s s' : ContractState}
      (caller now batchId requestId self : Nat) (evs : List Event)
      (hfresh : s.decryptionContexts requestId = DecryptionContext.dflt)
      (h : requestBatchDecryption s caller now batchId requestId self = Except.ok (s', evs)) :
      Step s s'
  | opMyCallback {s s' : ContractState} (checkSig : Nat → Nat × Nat → Nat → Bool)
      (self requestId : Nat) (cleartexts : Nat × Nat) (proof : Nat) (evs : List Event)
      (h : myCallback checkSig s self requestId cleartexts proof = Except.ok (s', evs)) :
      Step s s'

/-- States reachable from deployment by successful calls. -/
inductive Reachable : ContractState → Prop where
  | init (deployer : Nat) : Reachable (initS deployer)
  | step {s s' : ContractState} : Reachable s → Step s s' → Reachable s'

/-- Every successful call either leaves the batch registry, the batch
pointer and the ledger unchanged, or is an openBatch, closeBatch or
submitReputation call. -/
theorem step_cases {s s' : ContractState} (h : Step s s') :
    (s'.batches = s.batches ∧ s'.currentBatchId = s.currentBatchId ∧
      s'.submissions = s.submissions) ∨
    (∃ caller evs, openBatch s caller = Except.ok (s', evs)) ∨
    (∃ caller evs, closeBatch s caller = Except.ok (s', evs)) ∨
    (∃ caller now ct evs, submitReputation s caller now ct = Except.ok (s', evs)) := by
  cases h with
  | opTransferOwnership caller newOwner evs h =>
    exact Or.inl (by rw [transferOwnership_ok h]; exact ⟨rfl, rfl, rfl⟩)
  | opAddProvider caller p evs h =>
    rcases addProvider_ok h with h' | h' <;>
      exact Or.inl (by rw [h']; exact ⟨rfl, rfl, rfl⟩)
  | opRemoveProvider caller p evs h =>
    rcases removeProvider_ok h with h' | h' <;>
      exact Or.inl (by rw [h']; exact ⟨rfl, rfl, rfl⟩)
  | opSetCooldownSeconds caller n evs h =>
    exact Or.inl (by rw [setCooldownSeconds_ok h]; exact ⟨rfl, rfl, rfl⟩)
  | opPause caller evs h =>
    exact Or.inl (by rw [pause_ok h]; exact ⟨rfl, rfl, rfl⟩)
  | opUnpause caller evs h =>
    exact Or.inl (by rw [unpause_ok h]; exact ⟨rfl, rfl, rfl⟩)
  | opOpenBatch caller evs h => exact Or.inr (Or.inl ⟨caller, evs, h⟩)
  | opCloseBatch caller evs h => exact Or.inr (Or.inr (Or.inl ⟨caller, evs, h⟩))
  | opSubmitReputation caller now ct evs h =>
    exact Or.inr (Or.inr (Or.inr ⟨caller, now, ct, evs, h⟩))
  | opRequestBatchDecryption caller now batchId requestId self evs hfresh h =>
    obtain ⟨_, _, _, h'⟩ := requestBatchDecryption_ok h
    exact Or.inl (by rw [h']; exact ⟨rfl, rfl, rfl⟩)
  | opMyCallback checkSig self requestId cleartexts proof evs h =>
    obtain ⟨_, h', _⟩ := myCallback_ok h
    exact Or.inl (by rw [h']; exact ⟨rfl, rfl, rfl⟩)

/-- In every reachable state, only the currently tracked batch can be open:
closeBatch closes the slot before advancing the pointer and openBatch only
ever writes the current slot. -/
theorem reachable_invOpen {s : ContractState} (hr : Reachable s) :
    ∀ b, (s.batches b).isOpen = true → b = s.currentBatchId := by
  induction hr with
  | init d =>
    intro b hb
    simp [initS, constructorState, ReputationBatch.dflt] at hb
  | @step s s' _ hstep ih =>
    rcases step_cases hstep with ⟨hb, hc, _⟩ | ⟨c, evs, hok⟩ | ⟨c, evs, hok⟩ |
      ⟨c, n, ct, evs, hok⟩
    · intro b hob
      rw [hb] at hob
      rw [hc]
      exact ih b hob
    · obtain h' := openBatch_ok hok
      subst h'
      intro b hob
      simp only [upd] at hob
      by_cases hbc : b = s.currentBatchId
      · exact hbc
      · rw [if_neg hbc] at hob
        exact ih b hob
    · obtain ⟨hopen, h'⟩ := closeBatch_ok hok
      subst h'
      intro b hob
      simp only [upd] at hob
      by_cases hbc : b = s.currentBatchId
      · rw [if_pos hbc] at hob
        simp at hob
      · rw [if_neg hbc] at hob
        exact absurd (ih b hob) hbc
    · obtain ⟨hopen, h'⟩ := submitReputation_ok hok
      subst h'
      intro b hob
      simp only [upd] at hob
      by_cases hbc : b = s.currentBatchId
      · exact hbc
      · rw [if_neg hbc] at hob
        exact ih b hob

/-- One successful call under the discipline that openBatch is only invoked
while the current batch is not already open (the spec's "batches are never
reopened" regime). -/
inductive StepR : ContractState → ContractState → Prop where
  | opTransferOwnership {s s' : ContractState} (caller newOwner : Nat) (evs : List Event)
      (h : transferOwnership s caller newOwner = Except.ok (s', evs)) : StepR s s'
  | opAddProvider {s s' : ContractState} (caller p : Nat) (evs : List Event)
      (h : addProvider s caller p = Except.ok (s', evs)) : StepR s s'
  | opRemoveProvider {s s' : ContractState} (caller p : Nat) (evs : List Event)
      (h : removeProvider s caller p = Except.ok (s', evs)) : StepR s s'
  | opSetCooldownSeconds {s s' : ContractState} (caller n : Nat) (evs : List Event)
      (h : setCooldownSeconds s caller n = Except.ok (s', evs)) : StepR s s'
  | opPause {s s' : ContractState} (caller : Nat) (evs : List Event)
      (h : pause s caller = Except.ok (s', evs)) : StepR s s'
  | opUnpause {s s' : ContractState} (caller : Nat) (evs : List Event)
      (h : unpause s caller = Except.ok (s', evs)) : StepR s s'
  | opOpenBatch {s s' : ContractState} (caller : Nat) (evs : List Event)
      (hnotopen : (s.batches s.currentBatchId).isOpen = false)
      (h : openBatch s caller = Except.ok (s', evs)) : StepR s s'
  | opCloseBatch {s s' : ContractState} (caller : Nat) (evs : List Event)
      (h : closeBatch s caller = Except.ok (s', evs)) : StepR s s'
  | opSubmitReputation {s s' : ContractState} (caller now : Nat) (ct : Ct) (evs : List Event)
      (h : submitReputation s caller now ct = Except.ok (s', evs)) : StepR s s'
  | opRequestBatchDecryption {s s' : ContractState}
      (caller now batchId requestId self : Nat) (evs : List Event)
      (hfresh : s.decryptionContexts requestId = DecryptionContext.dflt)
      (h : requestBatchDecryption s caller now batchId requestId self = Except.ok (s', evs)) :
      StepR s s'
  | opMyCallback {s s' : ContractState} (checkSig : Nat → Nat × Nat → Nat → Bool)
      (self requestId : Nat) (cleartexts : Nat × Nat) (proof : Nat) (evs : List Event)
      (h : myCallback checkSig s self requestId cleartexts proof = Except.ok (s', evs)) :
      StepR s s'

/-- States reachable from deployment under the no-reopen discipline. -/
inductive ReachableR : ContractState → Prop where
  | init (deployer : Nat) : ReachableR (initS deployer)
  | step {s s' : ContractState} : ReachableR s → StepR s s' → ReachableR s'

/-- Case analysis for `StepR` in terms of the batch registry, the batch
pointer and the ledger. -/
theorem stepR_cases {s s' : ContractState} (h : StepR s s') :
    (s'.batches = s.batches ∧ s'.currentBatchId = s.currentBatchId ∧
      s'.submissions = s.submissions) ∨
    ((s.batches s.currentBatchId).isOpen = false ∧
      ∃ caller evs, openBatch s caller = Except.ok (s', evs)) ∨
    (∃ caller evs, closeBatch s caller = Except.ok (s', evs)) ∨
    (∃ caller now ct evs, submitReputation s caller now ct = Except.ok (s', evs)) := by
  cases h with
  | opTransferOwnership caller newOwner evs h =>
    exact Or.inl (by rw [transferOwnership_ok h]; exact ⟨rfl, rfl, rfl⟩)
  | opAddProvider caller p evs h =>
    rcases addProvider_ok h with h' | h' <;>
      exact Or.inl (by rw [h']; exact ⟨rfl, rfl, rfl⟩)
  | opRemoveProvider caller p evs h =>
    rcases removeProvider_ok h with h' | h' <;>
      exact Or.inl (by rw [h']; exact ⟨rfl, rfl, rfl⟩)
  | opSetCooldownSeconds caller n evs h =>
    exact Or.inl (by rw [setCooldownSeconds_ok h]; exact ⟨rfl, rfl, rfl⟩)
  | opPause caller evs h =>
    exact Or.inl (by rw [pause_ok h]; exact ⟨rfl, rfl, rfl⟩)
  | opUnpause caller evs h =>
    exact Or.inl (by rw [unpause_ok h]; exact ⟨rfl, rfl, rfl⟩)
  | opOpenBatch caller evs hnotopen h => exact Or.inr (Or.inl ⟨hnotopen, caller, evs, h⟩)
  | opCloseBatch caller evs h => exact Or.inr (Or.inr (Or.inl ⟨caller, evs, h⟩))
  | opSubmitReputation caller now ct evs h =>
    exact Or.inr (Or.inr (Or.inr ⟨caller, now, ct, evs, h⟩))
  | opRequestBatchDecryption caller now batchId requestId self evs hfresh h =>
    obtain ⟨_, _, _, h'⟩ := requestBatchDecryption_ok h
    exact Or.inl (by rw [h']; exact ⟨rfl, rfl, rfl⟩)
  | opMyCallback checkSig self requestId cleartexts proof evs h =>
    obtain ⟨_, h', _⟩ := myCallback_ok h
    exact Or.inl (by rw [h']; exact ⟨rfl, rfl, rfl⟩)

/-- Number of ledger entries referencing batch `b`. -/
def countB (subs : List ReputationSubmission) (b : Nat) : Nat :=
  List.countP (fun e => decide (e.batchId = b)) subs

/-- Counting over an append of a single entry. -/
theorem countB_append (subs : List ReputationSubmission) (e : ReputationSubmission)
    (b : Nat) :
    countB (subs ++ [e]) b = countB subs b + (if e.batchId = b then 1 else 0) := by
  simp [countB, List.countP_append, List.countP_cons]

/-- The counting invariant maintained under the no-reopen discipline:
every batch's submissionCount is the number of ledger entries referencing
it, a non-open current slot has no entries yet, and every ledger entry
references a batch at or below the pointer. -/
def InvC (s : ContractState) : Prop :=
  (∀ b, (s.batches b).submissionCount = countB s.submissions b) ∧
  ((s.batches s.currentBatchId).isOpen = false →
    countB s.submissions s.currentBatchId = 0) ∧
  (∀ e ∈ s.submissions, e.batchId ≤ s.currentBatchId)

/-- `InvC` holds in every state reachable under the no-reopen discipline. -/
theorem reachableR_invC {s : ContractState} (hr : ReachableR s) : InvC s := by
  induction hr with
  | init d =>
    refine ⟨fun b => rfl, fun _ => rfl, ?_⟩
    intro e he
    simp [initS, constructorState] at he
  | @step s s' _ hstep ih =>
    obtain ⟨ih1, ih2, ih3⟩ := ih
    rcases stepR_cases hstep with ⟨hb, hc, hsub⟩ | ⟨hno, c, evs, hok⟩ |
      ⟨c, evs, hok⟩ | ⟨c, n, ct, evs, hok⟩
    · refine ⟨fun b => ?_, ?_, ?_⟩
      · rw [hb, hsub]; exact ih1 b
      · rw [hb, hc, hsub]; exact ih2
      · rw [hsub, hc]; exact ih3
    · obtain h' := openBatch_ok hok
      subst h'
      refine ⟨fun b => ?_, ?_, ih3⟩
      · simp only [upd]
        by_cases hbc : b = s.currentBatchId
        · rw [if_pos hbc, hbc]
          exact ((ih2 hno).symm : _)
        · rw [if_neg hbc]
          exact ih1 b
      · intro hfalse
        simp [upd] at hfalse
    · obtain ⟨hopen, h'⟩ := closeBatch_ok hok
      subst h'
      refine ⟨fun b => ?_, ?_, ?_⟩
      · simp only [upd]
        by_cases hbc : b = s.currentBatchId
        · rw [if_pos hbc, hbc]
          exact ih1 s.currentBatchId
        · rw [if_neg hbc]
          exact ih1 b
      · intro _
        have : ∀ e ∈ s.submissions, ¬ e.batchId = s.currentBatchId + 1 := by
          intro e he
          have := ih3 e he
          omega
        simp only [countB, List.countP_eq_zero]
        intro e he
        simp only [decide_eq_true_eq]
        exact this e he
      · intro e he
        have := ih3 e he
        show e.batchId ≤ s.currentBatchId + 1
        omega
    · obtain ⟨hopen, h'⟩ := submitReputation_ok hok
      subst h'
      refine ⟨fun b => ?_, ?_, ?_⟩
      · simp only [upd, countB_append]
        by_cases hbc : b = s.currentBatchId
        · rw [if_pos hbc, if_pos (by exact hbc.symm ▸ rfl)]
          rw [hbc]
          exact congrArg (· + 1) (ih1 s.currentBatchId)
        · rw [if_neg hbc, if_neg (by simpa using fun hx => hbc hx.symm)]
          exact ih1 b
      · intro hfalse
        simp [upd, hopen] at hfalse
      · intro e he
        simp only [List.mem_append, List.mem_singleton] at he
        rcases he with he | he
        · exact ih3 e he
        · rw [he]

/-- One successful call that is not openBatch. -/
inductive StepNO : ContractState → ContractState → Prop where
  | opTransferOwnership {s s' : ContractState} (caller newOwner : Nat) (evs : List Event)
      (h : transferOwnership s caller newOwner = Except.ok (s', evs)) : StepNO s s'
  | opAddProvider {s s' : ContractState} (caller p : Nat) (evs : List Event)
      (h : addProvider s caller p = Except.ok (s', evs)) : StepNO s s'
  | opRemoveProvider {s s' : ContractState} (caller p : Nat) (evs : List Event)
      (h : removeProvider s caller p = Except.ok (s', evs)) : StepNO s s'
  | opSetCooldownSeconds {s s' : ContractState} (caller n : Nat) (evs : List Event)
      (h : setCooldownSeconds s caller n = Except.ok (s', evs)) : StepNO s s'
  | opPause {s s' : ContractState} (caller : Nat) (evs : List Event)
      (h : pause s caller = Except.ok (s', evs)) : StepNO s s'
  | opUnpause {s s' : ContractState} (caller : Nat) (evs : List Event)
      (h : unpause s caller = Except.ok (s', evs)) : StepNO s s'
  | opCloseBatch {s s' : ContractState} (caller : Nat) (evs : List Event)
      (h : closeBatch s caller = Except.ok (s', evs)) : StepNO s s'
  | opSubmitReputation {s s' : ContractState} (caller now : Nat) (ct : Ct) (evs : List Event)
      (h : submitReputation s caller now ct = Except.ok (s', evs)) : StepNO s s'
  | opRequestBatchDecryption {s s' : ContractState}
      (caller now batchId requestId self : Nat) (evs : List Event)
      (hfresh : s.decryptionContexts requestId = DecryptionContext.dflt)
      (h : requestBatchDecryption s caller now batchId requestId self = Except.ok (s', evs)) :
      StepNO s s'
  | opMyCallback {s s' : ContractState} (checkSig : Nat → Nat × Nat → Nat → Bool)
      (self requestId : Nat) (cleartexts : Nat × Nat) (proof : Nat) (evs : List Event)
      (h : myCallback checkSig s self requestId cleartexts proof = Except.ok (s', evs)) :
      StepNO s s'

/-- Zero or more successful non-openBatch calls. -/
inductive ReachNO : ContractState → ContractState → Prop where
  | refl (s : ContractState) : ReachNO s s
  | step {s s' s'' : ContractState} : ReachNO s s' → StepNO s' s'' → ReachNO s s''

/-- If no batch is open, no non-openBatch call can open one: closeBatch and
submitReputation both require the current batch open, and every other
non-openBatch call leaves the batch registry unchanged. -/
theorem stepNO_allClosed {s s' : ContractState} (h : StepNO s s')
    (hac : ∀ b, (s.batches b).isOpen = false) :
    ∀ b, (s'.batches b).isOpen = false := by
  cases h with
  | opTransferOwnership caller newOwner evs h => rw [transferOwnership_ok h]; exact hac
  | opAddProvider caller p evs h =>
    rcases addProvider_ok h with h' | h' <;> rw [h'] <;> exact hac
  | opRemoveProvider caller p evs h =>
    rcases removeProvider_ok h with h' | h' <;> rw [h'] <;> exact hac
  | opSetCooldownSeconds caller n evs h => rw [setCooldownSeconds_ok h]; exact hac
  | opPause caller evs h => rw [pause_ok h]; exact hac
  | opUnpause caller evs h => rw [unpause_ok h]; exact hac
  | opCloseBatch caller evs h =>
    obtain ⟨hopen, _⟩ := closeBatch_ok h
    rw [hac _] at hopen
    exact absurd hopen (by simp)
  | opSubmitReputation caller now ct evs h =>
    obtain ⟨hopen, _⟩ := submitReputation_ok h
    rw [hac _] at hopen
    exact absurd hopen (by simp)
  | opRequestBatchDecryption caller now batchId requestId self evs hfresh h =>
    obtain ⟨_, _, _, h'⟩ := requestBatchDecryption_ok h
    rw [h']
    exact hac
  | opMyCallback checkSig self requestId cleartexts proof evs h =>
    obtain ⟨_, h', _⟩ := myCallback_ok h
    rw [h']
    exact hac

/-- The all-batches-closed property persists along non-openBatch calls. -/
theorem reachNO_allClosed {s0 s : ContractState} (h : ReachNO s0 s)
    (hac : ∀ b, (s0.batches b).isOpen = false) :
    ∀ b, (s.batches b).isOpen = false := by
  induction h with
  | refl => exact hac
  | step _ hstep ih => exact stepNO_allClosed hstep ih

/-- A processed decryption context can never become unprocessed: each
operation either leaves the context table alone, stores a context only
under a fresh request id, or sets processed to true. -/
theorem step_processed_mono {s s' : ContractState} (h : Step s s') {r : Nat}
    (hp : (s.decryptionContexts r).processed = true) :
    (s'.decryptionContexts r).processed = true := by
  cases h with
  | opTransferOwnership caller newOwner evs h => rw [transferOwnership_ok h]; exact hp
  | opAddProvider caller p evs h =>
    rcases addProvider_ok h with h' | h' <;> rw [h'] <;> exact hp
  | opRemoveProvider caller p evs h =>
    rcases removeProvider_ok h with h' | h' <;> rw [h'] <;> exact hp
  | opSetCooldownSeconds caller n evs h => rw [setCooldownSeconds_ok h]; exact hp
  | opPause caller evs h => rw [pause_ok h]; exact hp
  | opUnpause caller evs h => rw [unpause_ok h]; exact hp
  | opOpenBatch caller evs h => rw [openBatch_ok h]; exact hp
  | opCloseBatch caller evs h =>
    obtain ⟨_, h'⟩ := closeBatch_ok h
    rw [h']
    exact hp
  | opSubmitReputation caller now ct evs h =>
    obtain ⟨_, h'⟩ := submitReputation_ok h
    rw [h']
    exact hp
  | opRequestBatchDecryption caller now batchId requestId self evs hfresh h =>
    obtain ⟨_, _, _, h'⟩ := requestBatchDecryption_ok h
    rw [h']
    show (upd s.decryptionContexts requestId _ r).processed = true
    simp only [upd]
    by_cases hrq : r = requestId
    · rw [hrq, hfresh] at hp
      exact absurd hp (by simp [DecryptionContext.dflt])
    · rw [if_neg hrq]
      exact hp
  | opMyCallback checkSig self requestId cleartexts proof evs h =>
    obtain ⟨_, h', _⟩ := myCallback_ok h
    rw [h']
    show (upd s.decryptionContexts requestId _ r).processed = true
    simp only [upd]
    by_cases hrq : r = requestId
    · rw [if_pos hrq]
    · rw [if_neg hrq]
      exact hp

/-- The callback reverts StateMismatch whenever the freshly recomputed
digest differs from the stored one (and the context is not yet processed). -/
theorem myCallback_mismatch (checkSig : Nat → Nat × Nat → Nat → Bool)
    (s : ContractState) (self requestId : Nat) (pay : Nat × Nat) (pf : Nat)
    (hproc : (s.decryptionContexts requestId).processed = false)
    (hne : hashCiphertexts
        [(callbackAggLoop s.submissions (s.decryptionContexts requestId).batchId
            Ct.uninit false).1,
         Ct.mul (callbackAggLoop s.submissions (s.decryptionContexts requestId).batchId
            Ct.uninit false).1
           (Ct.inv (Ct.enc (s.batches
              (s.decryptionContexts requestId).batchId).submissionCount))] self ≠
        (s.decryptionContexts requestId).stateHash) :
    myCallback checkSig s self requestId pay pf = .error .StateMismatch := by
  unfold myCallback
  rw [if_neg (by simp [hproc]), if_pos hne]

/-- Pointwise update hits its own key. -/
theorem upd_self {A : Type} (m : Nat → A) (k : Nat) (v : A) : upd m k v k = v := by
  simp [upd]

/-! ### Claims -/

/-- C1: the claim says requestDisclosure succeeds exactly when batchId is
the currently tracked id, that batch is Open and non-empty. The code's gate
`batchId >= currentBatchId` reverts InvalidBatch precisely in that case:
in a reachable state with the tracked batch Open, non-empty, and all gate
checks passing, the call reverts InvalidBatch (first conjunct), and from
every reachable state every requestBatchDecryption call reverts (second
conjunct), because only the tracked batch can ever be Open. -/
theorem C1_requestDisclosure_gate :
    (cexS2.currentBatchId = 1 ∧
     (cexS2.batches 1).isOpen = true ∧
     (cexS2.batches 1).submissionCount = 1 ∧
     cexS2.isProvider 0 = true ∧
     cexS2.paused = false ∧
     requestBatchDecryption cexS2 0 200 1 7 9 = .error .InvalidBatch) ∧
    ∀ s : ContractState, Reachable s → ∀ caller now batchId requestId self : Nat,
      isOk (requestBatchDecryption s caller now batchId requestId self) = false := by
  refine ⟨⟨rfl, rfl, rfl, rfl, rfl, rfl⟩, ?_⟩
  intro s hs caller now batchId requestId self
  unfold requestBatchDecryption
  split
  · rfl
  split
  · rfl
  split
  · rfl
  split
  · rfl
  next hgate =>
    exfalso
    rw [not_or] at hgate
    obtain ⟨hle, hop⟩ := hgate
    have hb : (s.batches batchId).isOpen = true := by
      revert hop
      cases (s.batches batchId).isOpen <;> simp
    have heq := reachable_invOpen hs batchId hb
    omega

/-- C1 witness: instantiating the universal deadness statement at the
freshly deployed state. -/
theorem C1_witness :
    isOk (requestBatchDecryption (initS 0) 0 100 1 7 9) = false :=
  C1_requestDisclosure_gate.2 (initS 0) (Reachable.init 0) 0 100 1 7 9

/-- C2 counterexample: openBatch, one submission, then a second openBatch
on the still-open batch resets submissionCount to 0 while the single
ledger entry for batch 1 remains — the claimed equality and monotonicity
both fail. -/
theorem C2_counterexample :
    isOk (openBatch (initS 0) 0) = true ∧
    isOk (submitReputation cexS1 0 60 (Ct.ext 1)) = true ∧
    isOk (openBatch cexS2 0) = true ∧
    (cexS2.batches 1).submissionCount = 1 ∧
    countB cexS2.submissions 1 = 1 ∧
    (cexS3.batches 1).submissionCount = 0 ∧
    countB cexS3.submissions 1 = 1 :=
  ⟨rfl, rfl, rfl, rfl, rfl, rfl, rfl⟩

/-- C2 amended: under the no-reopen discipline (openBatch only invoked
while the current batch is not already open), every reachable state has
submissionCount equal to the number of ledger entries referencing the
batch, and no operation decreases any batch's submissionCount. -/
theorem C2_count_invariant {s : ContractState} (hr : ReachableR s) :
    (∀ b, (s.batches b).submissionCount = countB s.submissions b) ∧
    ∀ s' : ContractState, StepR s s' → ∀ b,
      (s.batches b).submissionCount ≤ (s'.batches b).submissionCount := by
  obtain ⟨ih1, ih2, ih3⟩ := reachableR_invC hr
  refine ⟨ih1, ?_⟩
  intro s' hstep b
  rcases stepR_cases hstep with ⟨hb, _, _⟩ | ⟨hno, c, evs, hok⟩ |
    ⟨c, evs, hok⟩ | ⟨c, n, ct, evs, hok⟩
  · rw [hb]
  · obtain h' := openBatch_ok hok
    subst h'
    show _ ≤ (upd s.batches s.currentBatchId _ b).submissionCount
    simp only [upd]
    by_cases hbc : b = s.currentBatchId
    · rw [if_pos hbc, hbc, ih1, ih2 hno]
    · rw [if_neg hbc]
  · obtain ⟨hopen, h'⟩ := closeBatch_ok hok
    subst h'
    show _ ≤ (upd s.batches s.currentBatchId _ b).submissionCount
    simp only [upd]
    by_cases hbc : b = s.currentBatchId
    · rw [if_pos hbc, hbc]
    · rw [if_neg hbc]
  · obtain ⟨hopen, h'⟩ := submitReputation_ok hok
    subst h'
    show _ ≤ (upd s.batches s.currentBatchId _ b).submissionCount
    simp only [upd]
    by_cases hbc : b = s.currentBatchId
    · rw [if_pos hbc, hbc]
      exact Nat.le_succ _
    · rw [if_neg hbc]

/-- C2 witness: the invariant instantiated at the freshly deployed state. -/
theorem C2_witness :
    ((initS 0).batches 1).submissionCount = countB (initS 0).submissions 1 :=
  (C2_count_invariant (ReachableR.init 0)).1 1

/-- C3 counterexample: for a requestId with no stored context the callback
does not stop at an unknown-request check (none exists in the code); it
proceeds to aggregation and the digest comparison and reverts
StateMismatch there. -/
theorem C3_counterexample :
    (initS 0).decryptionContexts 5 = DecryptionContext.dflt ∧
    myCallback sigTrue (initS 0) 9 5 (0, 0) 0 = .error .StateMismatch :=
  ⟨rfl, rfl⟩

/-- C3 amended: for every state and every requestId whose context slot
still holds the default record, the callback passes the replay check,
recomputes an aggregate and digest, and reverts StateMismatch because the
freshly computed keccak digest never equals the default zero digest; as a
revert it leaves the state unchanged. -/
theorem C3_unknown_request (checkSig : Nat → Nat × Nat → Nat → Bool)
    (s : ContractState) (self requestId : Nat) (pay : Nat × Nat) (pf : Nat)
    (h : s.decryptionContexts requestId = DecryptionContext.dflt) :
    myCallback checkSig s self requestId pay pf = .error .StateMismatch := by
  apply myCallback_mismatch
  · rw [h]
    rfl
  · rw [h]
    exact fun hc => Digest.noConfusion hc

/-- C3 witness: the amended statement at the freshly deployed state. -/
theorem C3_witness :
    myCallback sigTrue (initS 0) 9 6 (1, 2) 0 = .error .StateMismatch :=
  C3_unknown_request sigTrue (initS 0) 9 6 (1, 2) 0 rfl

/-- C4: the claimed drift scenario cannot be staged through the contract:
requestBatchDecryption on the open tracked batch reverts InvalidBatch
(first conjunct, at the concrete state of the end-to-end scenario), so no
execution satisfies the claim's premise. The detection mechanism itself is
sound: whenever requestBatchDecryption does succeed (possible only from raw
states with an open batch below the pointer) and one more entry of that
batch is appended to the ledger before the callback, the callback reverts
StateMismatch (second conjunct). -/
theorem C4_drift_detection :
    requestBatchDecryption cexS2 0 300 1 7 9 = .error .InvalidBatch ∧
    ∀ (s : ContractState) (caller now batchId requestId self : Nat)
      (s' : ContractState) (evs : List Event),
      requestBatchDecryption s caller now batchId requestId self = Except.ok (s', evs) →
      ∀ (ct : Ct) (p : Nat) (checkSig : Nat → Nat × Nat → Nat → Bool)
        (pay : Nat × Nat) (pf : Nat),
        myCallback checkSig
          { s' with submissions := s'.submissions ++
              [{ encryptedReputation := ct, provider := p, batchId := batchId }] }
          self requestId pay pf = .error .StateMismatch := by
  refine ⟨rfl, ?_⟩
  intro s caller now batchId requestId self s' evs h ct p checkSig pay pf
  obtain ⟨hlt, hopen, hagg, h'⟩ := requestBatchDecryption_ok h
  subst h'
  apply myCallback_mismatch
  · simp only [upd_self]
  · simp only [upd_self]
    rw [aggLoop_eq]
    rw [requestAggLoop_append s.submissions _ batchId rfl Ct.uninit false hagg]
    intro hc
    simp only [hashCiphertexts, Digest.keccakHash.injEq, List.cons.injEq] at hc
    exact Ct.add_ne _ _ hc.1.1

/-- C4 witness: the drift conjunct exercised at a concrete raw state in
which the request succeeds. -/
theorem C4_witness :
    myCallback sigTrue
      { sUnreachReq with submissions := sUnreachReq.submissions ++
          [{ encryptedReputation := Ct.ext 2, provider := 3, batchId := 1 }] }
      9 7 (0, 0) 0 = .error .StateMismatch :=
  C4_drift_detection.2 sUnreach 0 100 1 7 9 sUnreachReq
    [Event.DecryptionRequested 7 1] rfl (Ct.ext 2) 3 sigTrue (0, 0) 0

/-- C5 counterexample: after closeBatch, a submit by the authorized,
unpaused, cooldown-clear owner-provider reverts BatchNotOpen, which is a
distinct error kind from the claimed InvalidBatch. -/
theorem C5_counterexample :
    isOk (closeBatch cexS2 0) = true ∧
    submitReputation cexS2c 0 200 (Ct.ext 2) = .error .BatchNotOpen ∧
    decide (Err.BatchNotOpen = Err.InvalidBatch) = false :=
  ⟨rfl, rfl, rfl⟩

/-- C5 amended: in every state reached from a reachable state by a
successful closeBatch followed by any successful non-openBatch calls,
every submit by an authorized, unpaused, cooldown-clear provider reverts
BatchNotOpen (the code's closed-batch error kind; the spec's taxonomy folds
it into InvalidBatch), and as a revert it appends nothing to the ledger. -/
theorem C5_closed_batch_blocks_submit {s : ContractState} (hr : Reachable s)
    {caller0 : Nat} {s' : ContractState} {evs : List Event}
    (hc : closeBatch s caller0 = Except.ok (s', evs))
    {s'' : ContractState} (hno : ReachNO s' s'')
    (caller now : Nat) (ct : Ct)
    (hprov : s''.isProvider caller = true) (hpa : s''.paused = false)
    (hcd : s''.lastSubmissionTime caller + s''.cooldownSeconds ≤ now) :
    submitReputation s'' caller now ct = .error .BatchNotOpen := by
  obtain ⟨hopen, h'⟩ := closeBatch_ok hc
  have hall : ∀ b, (s'.batches b).isOpen = false := by
    subst h'
    intro b
    show (upd s.batches s.currentBatchId _ b).isOpen = false
    simp only [upd]
    by_cases hbc : b = s.currentBatchId
    · rw [if_pos hbc]
    · rw [if_neg hbc]
      cases hb : (s.batches b).isOpen
      · rfl
      · exact absurd (reachable_invOpen hr b hb) hbc
  have hall2 := reachNO_allClosed hno hall
  unfold submitReputation
  rw [if_neg (by simp [hprov]), if_neg (by simp [hpa]), if_neg (by omega),
    if_pos (hall2 _)]

/-- C5 witness: openBatch then closeBatch from deployment, then submit. -/
theorem C5_witness :
    submitReputation (getOk (closeBatch cexS1 0) cexS1) 0 100 (Ct.ext 1) =
      .error .BatchNotOpen :=
  C5_closed_batch_blocks_submit
    (Reachable.step (Reachable.init 0) (Step.opOpenBatch 0 [Event.BatchOpened 1] rfl))
    (rfl : closeBatch cexS1 0 =
      Except.ok (getOk (closeBatch cexS1 0) cexS1, [Event.BatchClosed 1]))
    (ReachNO.refl _) 0 100 (Ct.ext 1) rfl rfl (by decide)

/-- C6: a callback on an already-processed context always reverts
ReplayAttempt (a revert leaves the state unchanged and emits nothing), and
a processed flag can never be cleared by any successful operation, so it
transitions from false to true at most once. -/
theorem C6_replay_rejection (s : ContractState)
    (checkSig : Nat → Nat × Nat → Nat → Bool) (self requestId : Nat)
    (pay : Nat × Nat) (pf : Nat) :
    ((s.decryptionContexts requestId).processed = true →
      myCallback checkSig s self requestId pay pf = .error .ReplayAttempt) ∧
    ∀ s' : ContractState, Step s s' → ∀ r : Nat,
      (s.decryptionContexts r).processed = true →
      (s'.decryptionContexts r).processed = true := by
  constructor
  · intro hp
    unfold myCallback
    rw [if_pos hp]
  · intro s' hstep r hp
    exact step_processed_mono hstep hp

/-- C6 witness: the replay revert and the persistence of the processed
flag across a concrete successful pause step. -/
theorem C6_witness :
    myCallback sigTrue sProc 9 5 (0, 0) 0 = .error .ReplayAttempt ∧
    ((getOk (pause sProc 0) sProc).decryptionContexts 5).processed = true :=
  ⟨(C6_replay_rejection sProc sigTrue 9 5 (0, 0) 0).1 rfl,
   (C6_replay_rejection sProc sigTrue 9 5 (0, 0) 0).2
     (getOk (pause sProc 0) sProc)
     (Step.opPause 0 [Event.Paused 0] rfl) 5 rfl⟩

/-- C7: on any fixed ledger and batch id, the callback's aggregation loop
computes exactly the ciphertext pair of requestBatchDecryption's loop, and
the resulting two-handle digests coincide; aggregation is deterministic in
the ledger state. -/
theorem C7_aggregation_deterministic (subs : List ReputationSubmission)
    (batchId count self : Nat) :
    callbackAggLoop subs batchId Ct.uninit false =
      requestAggLoop subs batchId Ct.uninit false ∧
    hashCiphertexts
      [(callbackAggLoop subs batchId Ct.uninit false).1,
       Ct.mul (callbackAggLoop subs batchId Ct.uninit false).1
         (Ct.inv (Ct.enc count))] self =
    hashCiphertexts
      [(requestAggLoop subs batchId Ct.uninit false).1,
       Ct.mul (requestAggLoop subs batchId Ct.uninit false).1
         (Ct.inv (Ct.enc count))] self := by
  have h := aggLoop_eq subs batchId Ct.uninit false
  exact ⟨h, by rw [h]⟩

/-- C8: exact cooldown boundaries. A submission one second before
`lastSubmissionTime + cooldownSeconds` reverts CooldownActive and one at
the boundary succeeds when the other preconditions hold; the independently
tracked disclosure-request cooldown has the same boundary (at the boundary
the request never reverts CooldownActive). -/
theorem C8_cooldown_boundary (s : ContractState) (caller now : Nat) (ct : Ct)
    (batchId requestId self : Nat) :
    (s.isProvider caller = true → s.paused = false →
      now + 1 = s.lastSubmissionTime caller + s.cooldownSeconds →
      submitReputation s caller now ct = .error .CooldownActive) ∧
    (s.isProvider caller = true → s.paused = false →
      now = s.lastSubmissionTime caller + s.cooldownSeconds →
      (s.batches s.currentBatchId).isOpen = true → ct.isInitialized = true →
      isOk (submitReputation s caller now ct) = true) ∧
    (s.isProvider caller = true → s.paused = false →
      now + 1 = s.lastDecryptionRequestTime caller + s.cooldownSeconds →
      requestBatchDecryption s caller now batchId requestId self =
        .error .CooldownActive) ∧
    (s.isProvider caller = true → s.paused = false →
      now = s.lastDecryptionRequestTime caller + s.cooldownSeconds →
      requestBatchDecryption s caller now batchId requestId self ≠
        .error .CooldownActive) := by
  refine ⟨?_, ?_, ?_, ?_⟩
  · intro hprov hpa hb
    unfold submitReputation
    rw [if_neg (by simp [hprov]), if_neg (by simp [hpa]), if_pos (by omega)]
  · intro hprov hpa hb hopen hinit
    unfold submitReputation
    rw [if_neg (by simp [hprov]), if_neg (by simp [hpa]), if_neg (by omega),
      if_neg (by simp [hopen]), if_neg (by simp [hinit])]
    rfl
  · intro hprov hpa hb
    unfold requestBatchDecryption
    rw [if_neg (by simp [hprov]), if_neg (by simp [hpa]), if_pos (by omega)]
  · intro hprov hpa hb
    unfold requestBatchDecryption
    rw [if_neg (by simp [hprov]), if_neg (by simp [hpa]), if_neg (by omega)]
    split
    · exact error_ne (by decide)
    split
    · exact error_ne (by decide)
    split
    · exact error_ne (by decide)
    · exact ok_ne_error

/-- C8 witness: the four boundary facts at the concrete post-openBatch
state (cooldown 60, last action times 0). -/
theorem C8_witness :
    submitReputation cexS1 0 59 (Ct.ext 1) = .error .CooldownActive ∧
    isOk (submitReputation cexS1 0 60 (Ct.ext 1)) = true ∧
    requestBatchDecryption cexS1 0 59 1 7 9 = .error .CooldownActive ∧
    requestBatchDecryption cexS1 0 60 1 7 9 ≠ .error .CooldownActive :=
  ⟨(C8_cooldown_boundary cexS1 0 59 (Ct.ext 1) 1 7 9).1 rfl rfl (by decide),
   (C8_cooldown_boundary cexS1 0 60 (Ct.ext 1) 1 7 9).2.1 rfl rfl (by decide) rfl rfl,
   (C8_cooldown_boundary cexS1 0 59 (Ct.ext 1) 1 7 9).2.2.1 rfl rfl (by decide),
   (C8_cooldown_boundary cexS1 0 60 (Ct.ext 1) 1 7 9).2.2.2 rfl rfl (by decide)⟩

/-- C9: frame of the successful callback — every storage component except
the one context's processed flag is unchanged (owner, providers, cooldown
bookkeeping, pause flag, batch registry, batch pointer, ledger, all other
contexts), and the disclosed total and average appear only in the emitted
DecryptionCompleted event, never in storage. -/
theorem C9_callback_frame (checkSig : Nat → Nat × Nat → Nat → Bool)
    (s : ContractState) (self requestId : Nat) (pay : Nat × Nat) (pf : Nat)
    (s' : ContractState) (evs : List Event)
    (h : myCallback checkSig s self requestId pay pf = Except.ok (s', evs)) :
    s'.owner = s.owner ∧ s'.isProvider = s.isProvider ∧
    s'.lastSubmissionTime = s.lastSubmissionTime ∧
    s'.lastDecryptionRequestTime = s.lastDecryptionRequestTime ∧
    s'.cooldownSeconds = s.cooldownSeconds ∧ s'.paused = s.paused ∧
    s'.batches = s.batches ∧ s'.currentBatchId = s.currentBatchId ∧
    s'.submissions = s.submissions ∧
    s'.decryptionContexts = upd s.decryptionContexts requestId
      { s.decryptionContexts requestId with processed := true } ∧
    evs = [Event.DecryptionCompleted requestId
      (s.decryptionContexts requestId).batchId pay.1 pay.2] := by
  obtain ⟨_, h', he⟩ := myCallback_ok h
  subst h'
  exact ⟨rfl, rfl, rfl, rfl, rfl, rfl, rfl, rfl, rfl, rfl, he⟩

/-- C9 witness: the frame instantiated at a concrete successful callback. -/
theorem C9_witness :
    sCb2.batches = sCb.batches ∧ sCb2.submissions = sCb.submissions :=
  ⟨(C9_callback_frame sigTrue sCb 9 5 (60, 20) 0 sCb2
      [Event.DecryptionCompleted 5 1 60 20] rfl).2.2.2.2.2.2.1,
   (C9_callback_frame sigTrue sCb 9 5 (60, 20) 0 sCb2
      [Event.DecryptionCompleted 5 1 60 20] rfl).2.2.2.2.2.2.2.2.1⟩

/-- C10: at construction the deployer is owner and simultaneously an
authorized provider (with the ProviderAdded observation emitted), so in
the initial state the deployer's submit and requestDisclosure calls never
revert NotProvider, without any prior addProvider call. -/
theorem C10_constructor_provider (deployer : Nat) :
    (initS deployer).owner = deployer ∧
    (initS deployer).isProvider deployer = true ∧
    (constructorState deployer).2 = [Event.ProviderAdded deployer] ∧
    (∀ now : Nat, ∀ ct : Ct,
      submitReputation (initS deployer) deployer now ct ≠ .error .NotProvider) ∧
    (∀ now batchId requestId self : Nat,
      requestBatchDecryption (initS deployer) deployer now batchId requestId self ≠
        .error .NotProvider) := by
  have hprov : (initS deployer).isProvider deployer = true := by
    simp [initS, constructorState, upd]
  refine ⟨rfl, hprov, rfl, ?_, ?_⟩
  · intro now ct
    unfold submitReputation
    rw [if_neg (by simp [hprov])]
    split
    · exact error_ne (by decide)
    split
    · exact error_ne (by decide)
    split
    · exact error_ne (by decide)
    split
    · exact error_ne (by decide)
    · exact ok_ne_error
  · intro now batchId requestId self
    unfold requestBatchDecryption
    rw [if_neg (by simp [hprov])]
    split
    · exact error_ne (by decide)
    split
    · exact error_ne (by decide)
    split
    · exact error_ne (by decide)
    split
    · exact error_ne (by decide)
    split
    · exact error_ne (by decide)
    · exact ok_ne_error

/-- C10 witness: the deployer's submit in the initial state does not
revert NotProvider. -/
theorem C10_witness :
    submitReputation (initS 0) 0 0 (Ct.ext 1) ≠ .error .NotProvider :=
  (C10_constructor_provider 0).2.2.2.1 0 (Ct.ext 1)
